import Mathlib

/-!
Verification of the pagination engine, generic CRUD dispatch and error
classifier of a Go client library for a time-tracking REST API.

The Go sources are shallowly embedded: Go structs become Lean structures,
pointer fields become `Option`, the network is an abstract fetcher function,
and the unbounded traversal loops are given explicit fuel (running out of
fuel is a distinct outcome, never identified with termination).
Go `int` is modelled as `Int` (no overflow is relevant at the scale of page
numbers and HTTP status codes); `time.Time` values are modelled by Unix
seconds together with a distinguished zero value.
-/

namespace Harvest

/-- `DefaultPerPage` constant (client.go:21): the default number of items to
request per page for list operations. -/
def DefaultPerPage : Int := 2000

/-- `ListOptions` (part_003:12-16).  `Page`/`PerPage` are Go `int` (0 = unset);
`UpdatedSince *time.Time` is modelled as an optional Unix-seconds value. -/
structure ListOptions where
  page : Int
  perPage : Int
  updatedSince : Option Int
deriving DecidableEq

/-- `PaginationLinks` (part_003:34-39); in Go the absent `next`/`previous`
links are the empty string (the zero value under `omitempty`). -/
structure PaginationLinks where
  first : String
  next : String
  previous : String
  last : String
deriving DecidableEq

/-- `Paginated[T]` (part_003:19-31).  `Links *PaginationLinks` is a pointer,
hence `Option`; `NextPage *int` and `PreviousPage *int` likewise. -/
structure Paginated (T : Type) where
  items : List T
  links : Option PaginationLinks
  perPage : Int
  totalPages : Int
  totalEntries : Int
  nextPage : Option Int
  previousPage : Option Int
  page : Int
deriving DecidableEq

/-- `Paginated.HasNextPage` (part_003:42-44): `return p.NextPage != nil`. -/
def Paginated.HasNextPage (p : Paginated T) : Bool :=
  p.nextPage.isSome

/-- `Paginated.HasPreviousPage` (part_003:47-49). -/
def Paginated.HasPreviousPage (p : Paginated T) : Bool :=
  p.previousPage.isSome

/-- Modelled from the spec: `GetNextPageURL` is called by every fetch-all
loop (client.go:247, invoices.go:309, estimates.go:226, part_005, part_007)
but its definition is not among the provided sources.  Per spec §4.4 the
cursor policy extracts "the authoritative next-link URL from the page's link
set"; absence of the link is the empty string (a nil `Links` pointer also
means absent). -/
def Paginated.GetNextPageURL (p : Paginated T) : String :=
  match p.links with
  | none => ""
  | some l => l.next

/-- The (path, rawQuery) pair produced by Go's `url.Parse` for the link URLs
this client follows.  Percent-decoding is not modelled; the links are of the
shape `scheme://host/path?query` or `path?query`. -/
structure ParsedURL where
  path : String
  rawQuery : String
deriving DecidableEq

/-- Model of `url.Parse` restricted to the fields `ListPageFromURL` reads:
everything after the `scheme://host` part and before the first `?` is the
path, the remainder after the first `?` is the raw query. -/
def parseURL (fullURL : String) : ParsedURL :=
  let afterHost :=
    match fullURL.splitOn "://" with
    | [] => ""
    | [s] => s
    | _ :: rest => (String.intercalate "://" rest).dropWhile (fun c => c ≠ '/')
  match afterHost.splitOn "?" with
  | [] => { path := "", rawQuery := "" }
  | [p] => { path := p, rawQuery := "" }
  | p :: qs => { path := p, rawQuery := String.intercalate "?" qs }

/-- The path+query recombination of `ListPageFromURL` (client.go:203-206):
`u.Path`, plus `"?" + u.RawQuery` when the raw query is non-empty. -/
def pathAndQuery (fullURL : String) : String :=
  let u := parseURL fullURL
  if u.rawQuery = "" then u.path else u.path ++ "?" ++ u.rawQuery

/-- The two kinds of page request the traversals issue: `ListPage`
(options serialized onto a path, client.go:173) and `ListPageFromURL`
(an exact path+query taken from a link, client.go:195). -/
inductive Request where
  | byOptions (path : String) (opts : ListOptions)
  | byURL (pathQuery : String)
deriving DecidableEq

/-- The network, abstracted: what a single page fetch returns. -/
def Fetcher (E T : Type) := Request → Except E (Paginated T)

/-- What one iteration of the fetch-all loop decides to do next, read off the
loop of `List` (client.go:245-263): the loop runs while `HasNextPage()`;
inside, a non-empty `GetNextPageURL()` is followed first, else a non-nil
`NextPage` sets the page number, else the loop breaks. -/
inductive NextAction where
  | stop
  | followLink (url : String)
  | byPageNumber (n : Int)
deriving DecidableEq

/-- The branch structure of one iteration of `List`'s loop
(client.go:245-263), as a decision function on the current page. -/
def nextAction (p : Paginated T) : NextAction :=
  if p.HasNextPage then
    if p.GetNextPageURL ≠ "" then .followLink p.GetNextPageURL
    else
      match p.nextPage with
      | some n => .byPageNumber n
      | none => .stop
  else .stop

/-- The option normalization at the top of `List` (client.go:225-233): a nil
options pointer becomes a fresh zero value, then `Page` defaults to 1 and
`PerPage` to `DefaultPerPage`. -/
def normalizeOptions (opts? : Option ListOptions) : ListOptions :=
  let o0 := opts?.getD { page := 0, perPage := 0, updatedSince := none }
  let o1 := if o0.page = 0 then { o0 with page := 1 } else o0
  if o1.perPage = 0 then { o1 with perPage := DefaultPerPage } else o1

/-- The `for result.HasNextPage()` loop of `List` (client.go:245-265),
with explicit fuel.  Returns the successful fetches made by the loop, in
order, paired with the requests that produced them, and the outcome: `none`
when fuel runs out, otherwise the Go return pair — `(allItems, nil)` on
normal exit, `(nil, err)` when a fetch fails (client.go:250,258). -/
def listLoop (f : Fetcher E T) (path : String) :
    Nat → ListOptions → Paginated T → List T →
    List (Request × Paginated T) × Option (List T × Option E)
  | 0, _, _, _ => ([], none)
  | fuel + 1, opts, result, allItems =>
    match nextAction result with
    | .stop => ([], some (allItems, none))
    | .followLink url =>
      let req := Request.byURL (pathAndQuery url)
      match f req with
      | .error e => ([], some ([], some e))
      | .ok r =>
        let rec_ := listLoop f path fuel opts r (allItems ++ r.items)
        ((req, r) :: rec_.1, rec_.2)
    | .byPageNumber n =>
      let opts' := { opts with page := n }
      let req := Request.byOptions path opts'
      match f req with
      | .error e => ([], some ([], some e))
      | .ok r =>
        let rec_ := listLoop f path fuel opts' r (allItems ++ r.items)
        ((req, r) :: rec_.1, rec_.2)

/-- The generic fetch-all `List` (client.go:224-268): normalize options,
fetch the first page, append its items, then run the loop.  Returns the
trace of successful page fetches and the Go return pair (or `none` when the
loop's fuel runs out). -/
def listAll (f : Fetcher E T) (path : String) (opts? : Option ListOptions)
    (fuel : Nat) :
    List (Request × Paginated T) × Option (List T × Option E) :=
  let opts := normalizeOptions opts?
  let req := Request.byOptions path opts
  match f req with
  | .error e => ([], some ([], some e))
  | .ok r =>
    let rest := listLoop f path fuel opts r r.items
    ((req, r) :: rest.1, rest.2)

/-- The page fetch primitive of a per-resource service and of the iterator:
Go's `func(context.Context, *API, string, *ListOptions) (*Paginated[T], error)`
with the context and client abstracted away. -/
def PageFetcher (E T : Type) := String → ListOptions → Except E (Paginated T)

/-- Outcome of a per-resource fetch-all loop.  `nilDeref` marks the Go
expression `*result.NextPage` evaluated on a nil pointer (a runtime panic);
`fuelOut` marks fuel exhaustion of the model, not termination. -/
inductive SvcOutcome (E T : Type) where
  | ok (items : List T)
  | err (e : E)
  | nilDeref
  | fuelOut
deriving DecidableEq

/-- The fetch-all loop shared verbatim by `ExpensesService.List`
(part_000:71-84) and `InvoicesService.List` (invoices.go:70-83): fetch a
page, append its items, break when `!result.HasNextPage()`, else
`opts.Page = *result.NextPage` and repeat. -/
def svcListLoop (f : PageFetcher E T) (path : String) :
    Nat → ListOptions → List T → SvcOutcome E T
  | 0, _, _ => .fuelOut
  | fuel + 1, opts, acc =>
    match f path opts with
    | .error e => .err e
    | .ok result =>
      let acc' := acc ++ result.items
      if ¬ result.HasNextPage then .ok acc'
      else
        match result.nextPage with
        | none => .nilDeref
        | some n => svcListLoop f path fuel { opts with page := n } acc'

/-- `ExpensesService.List` / `InvoicesService.List` (part_000:58-87,
invoices.go:57-86): normalize the options exactly as the generic `List`
does, then run the loop starting with no accumulated items. -/
def svcList (f : PageFetcher E T) (path : String) (opts? : Option ListOptions)
    (fuel : Nat) : SvcOutcome E T :=
  svcListLoop f path fuel (normalizeOptions opts?) []

/-- The mutable state of `Iterator[T]` (part_003:52-60), minus the client,
context and fetcher (passed separately): the path, the caller-owned options
the iterator advances in place, the loaded page and the index into it. -/
structure IteratorState (T : Type) where
  path : String
  opts : ListOptions
  current : Option (Paginated T)
  index : Nat
deriving DecidableEq

/-- `NewIterator` (part_003:63-82): a nil options pointer becomes a fresh
zero value, `Page` defaults to 1 and `PerPage` to 100 (the literal
"Default page size" at part_003:72). -/
def NewIterator (path : String) (opts? : Option ListOptions) :
    IteratorState T :=
  let o0 := opts?.getD { page := 0, perPage := 0, updatedSince := none }
  let o1 := if o0.page = 0 then { o0 with page := 1 } else o0
  let o2 := if o1.perPage = 0 then { o1 with perPage := 100 } else o1
  { path := path, opts := o2, current := none, index := 0 }

/-- One result of `Iterator.Next` (part_003:85-119).  `done` is the
`(nil, nil)` end-of-sequence return; `nilDeref` marks the dereference
`*it.current.NextPage` on a nil pointer (a runtime panic). -/
inductive NextResult (E T : Type) where
  | item (x : T)
  | done
  | err (e : E)
  | nilDeref
deriving DecidableEq

/-- The tail of `Iterator.Next` (part_003:112-118): return the item at the
current index and advance, else return `(nil, nil)`. -/
def iterNextReturn (st : IteratorState T) (page : Paginated T) :
    NextResult E T × IteratorState T :=
  if h : st.index < page.items.length then
    (.item (page.items.get ⟨st.index, h⟩), { st with index := st.index + 1 })
  else (.done, st)

/-- The middle of `Iterator.Next` (part_003:97-109): when the loaded page's
items are exhausted, stop at `(nil, nil)` unless `HasNextPage()`; otherwise
write `*it.current.NextPage` into the options, fetch, and reset the index.
Returns, besides the Go result and the new state, the list of options values
used for fetches made during this call. -/
def iterNextFetchIfNeeded (f : PageFetcher E T) (st : IteratorState T)
    (page : Paginated T) (log : List ListOptions) :
    NextResult E T × IteratorState T × List ListOptions :=
  if st.index ≥ page.items.length then
    if ¬ page.HasNextPage then (.done, st, log)
    else
      match page.nextPage with
      | none => (.nilDeref, st, log)
      | some n =>
        let st1 := { st with opts := { st.opts with page := n } }
        match f st1.path st1.opts with
        | .error e => (.err e, st1, log ++ [st1.opts])
        | .ok newPage =>
          let st2 := { st1 with current := some newPage, index := 0 }
          let r := iterNextReturn (E := E) st2 newPage
          (r.1, r.2, log ++ [st1.opts])
  else
    let r := iterNextReturn (E := E) st page
    (r.1, r.2, log)

/-- `Iterator.Next` (part_003:85-119): load the first page when none is
loaded yet (part_003:87-94), then run the exhaustion check and the item
return.  Also reports the options values of the fetches this call made. -/
def iterNext (f : PageFetcher E T) (st : IteratorState T) :
    NextResult E T × IteratorState T × List ListOptions :=
  match st.current with
  | none =>
    match f st.path st.opts with
    | .error e => (.err e, st, [st.opts])
    | .ok page =>
      let st1 := { st with current := some page, index := 0 }
      iterNextFetchIfNeeded f st1 page [st.opts]
  | some page => iterNextFetchIfNeeded f st page []

/-- Run `Iterator.Next` a fixed number of times, recording for each call the
result and the options of the fetches that call performed. -/
def runIter (f : PageFetcher E T) :
    Nat → IteratorState T → List (NextResult E T × List ListOptions)
  | 0, _ => []
  | n + 1, st =>
    let step := iterNext f st
    (step.1, step.2.2) :: runIter f n step.2.1

/-- `Timestamp` (part_003:147-149) wrapping a `time.Time`: either the Go
zero time (the value of `Rate{}` before any header is parsed) or
`time.Unix(sec, 0)`. -/
inductive Timestamp where
  | zero
  | unix (sec : Int)
deriving DecidableEq

/-- `Rate` (part_003:140-144). -/
structure Rate where
  limit : Int
  remaining : Int
  reset : Timestamp
deriving DecidableEq

/-- A decoded `{error, error_description}` body (the wire shape of
`ErrorResponse`'s JSON tags, errors.go:13-17): a message and field-level
sub-errors as (field, message) pairs. -/
structure ErrorEnvelope where
  message : String
  errors : List (String × String)
deriving DecidableEq

/-- The slice of an `http.Response` that `CheckResponse`, `ParseRate` and the
error renderers read: the status code, the request method and URL, the
headers, and the JSON decode of the body (`none` models a body
`json.Unmarshal` rejects, which the classifier tolerates, errors.go:65-68). -/
structure Response where
  statusCode : Int
  reqMethod : String
  reqURL : String
  headers : List (String × String)
  body : Option ErrorEnvelope
deriving DecidableEq

/-- Go's `Header.Get`: the first value for the key, or `""` when absent. -/
def headerGet (r : Response) (key : String) : String :=
  match r.headers.find? (fun kv => kv.1 = key) with
  | some kv => kv.2
  | none => ""

/-- Decimal digits to a number; `none` on an empty or non-digit string. -/
def decDigits : List Char → Option Nat
  | [] => none
  | cs =>
    cs.foldl
      (fun acc c =>
        match acc with
        | none => none
        | some n => if c.isDigit then some (n * 10 + (c.toNat - 48)) else none)
      (some 0)

/-- `strconv.Atoi` / `strconv.ParseInt(s, 10, 64)`: an optional sign and
decimal digits; `none` on a syntax error.  (Go's clamping of out-of-range
64-bit values is not modelled; the headers in play are small.) -/
def atoi (s : String) : Option Int :=
  match s.data with
  | '+' :: rest => (decDigits rest).map Int.ofNat
  | '-' :: rest => (decDigits rest).map (fun n => -(n : Int))
  | l => (decDigits l).map Int.ofNat

/-- `ParseRate` (part_003:163-179): start from the zero `Rate`; for each of
the three headers, when present, `Limit`/`Remaining` take the `Atoi` value
(0 on a syntax error — Go discards the error and `Atoi` returns 0), and
`Reset` is set to `time.Unix` of the parsed value only when `ParseInt`
succeeds. -/
def ParseRate (r : Response) : Rate :=
  let rate : Rate := { limit := 0, remaining := 0, reset := .zero }
  let rate :=
    let v := headerGet r "X-RateLimit-Limit"
    if v ≠ "" then { rate with limit := (atoi v).getD 0 } else rate
  let rate :=
    let v := headerGet r "X-RateLimit-Remaining"
    if v ≠ "" then { rate with remaining := (atoi v).getD 0 } else rate
  let rate :=
    let v := headerGet r "X-RateLimit-Reset"
    if v ≠ "" then
      match atoi v with
      | some ts => { rate with reset := .unix ts }
      | none => rate
    else rate
  rate

/-- The data of an `ErrorResponse` (errors.go:11-18) after classification:
the retained request method, URL and status, the chosen message, and the
field-level sub-errors. -/
structure ErrorResponseData where
  method : String
  url : String
  status : Int
  message : String
  errors : List (String × String)
deriving DecidableEq

/-- `ErrorResponse.Error` (errors.go:20-29): `"METHOD URL: STATUS MESSAGE"`,
with one `"\n  field: message"` line appended per sub-error. -/
def renderError (e : ErrorResponseData) : String :=
  let base := e.method ++ " " ++ e.url ++ ": " ++ toString e.status ++ " "
    ++ e.message
  if e.errors.length > 0 then
    e.errors.foldl
      (fun msg fe => msg ++ "\n  " ++ fe.1 ++ ": " ++ fe.2) base
  else base

/-- The classifier's result: `none` for 2xx, a rate-limit error for 429,
an `ErrorResponse` otherwise. -/
inductive CheckError where
  | rateLimit (rate : Rate) (message : String)
  | errorResponse (er : ErrorResponseData)
deriving DecidableEq

/-- `CheckResponse` (errors.go:50-88): 2xx is no error; 429 is a
`RateLimitError` with the parsed rate and the fixed message; otherwise the
body's best-effort decode populates the envelope and the message is chosen
by status — 401/403/404 overwrite unconditionally, 422 and the default case
only fill an empty message. -/
def CheckResponse (r : Response) : Option CheckError :=
  if 200 ≤ r.statusCode ∧ r.statusCode ≤ 299 then none
  else if r.statusCode = 429 then
    some (.rateLimit (ParseRate r) "API rate limit exceeded")
  else
    let er0 : ErrorResponseData :=
      { method := r.reqMethod, url := r.reqURL, status := r.statusCode,
        message := "", errors := [] }
    let er1 :=
      match r.body with
      | some env => { er0 with message := env.message, errors := env.errors }
      | none => er0
    let er2 :=
      if r.statusCode = 401 then
        { er1 with message :=
            "Authentication failed. Check your access token and account ID." }
      else if r.statusCode = 403 then
        { er1 with message :=
            "Access forbidden. You don't have permission to access this resource." }
      else if r.statusCode = 404 then
        { er1 with message := "Resource not found." }
      else if r.statusCode = 422 then
        if er1.message = "" then
          { er1 with message := "Invalid request. Check your input parameters." }
        else er1
      else if er1.message = "" then
        { er1 with message := "Unexpected status code: " ++ toString r.statusCode }
      else er1
    some (.errorResponse er2)

/-- Convert nonnegative Unix seconds to a UTC civil timestamp
(year, month, day, hour, minute, second).  Modelled from the spec: Go's
`time` package (not part of the sources) renders `time.Unix(sec, 0)` as an
absolute UTC timestamp; this is the standard proleptic-Gregorian conversion,
via eras of 400 years anchored at 0000-03-01. -/
def civilFromUnix (t : Nat) : Nat × Nat × Nat × Nat × Nat × Nat :=
  let days := t / 86400
  let secs := t % 86400
  let z := days + 719468
  let era := z / 146097
  let doe := z % 146097
  let yoe := (doe - doe / 1460 + doe / 36524 - doe / 146096) / 365
  let y := yoe + era * 400
  let doy := doe - (365 * yoe + yoe / 4 - yoe / 100)
  let mp := (5 * doy + 2) / 153
  let d := doy - (153 * mp + 2) / 5 + 1
  let m := if mp < 10 then mp + 3 else mp - 9
  let year := if m ≤ 2 then y + 1 else y
  (year, m, d, secs / 3600, secs % 3600 / 60, secs % 60)

/-- The context's terminal error: `context.Canceled` or
`context.DeadlineExceeded`. -/
inductive CtxErr where
  | canceled
  | deadlineExceeded
deriving DecidableEq

/-- Whether the caller's context is already done at the moment the transport
call returns (the `select` on `ctx.Done()` at client.go:147-151). -/
inductive CtxState where
  | active
  | done (e : CtxErr)
deriving DecidableEq

/-- The errors `API.Do` can surface on the paths modelled here: the
context's error, the raw transport error, or a classifier error. -/
inductive DoError (E : Type) where
  | ctx (e : CtxErr)
  | transport (e : E)
  | api (e : CheckError)
deriving DecidableEq

/-- `API.Do` (client.go:144-168) up to the error classification: the
transport result is given; when it is an error, the `select` at
client.go:147-151 returns `ctx.Err()` if the context is already done and the
raw error otherwise; on a response, `CheckResponse` failures are returned.
(The 2xx JSON decode into the caller's value is outside this model.) -/
def apiDo (ctx : CtxState) (transportResult : Except E Response) :
    Except (DoError E) Response :=
  match transportResult with
  | .error err =>
    match ctx with
    | .done ce => .error (.ctx ce)
    | .active => .error (.transport err)
  | .ok resp =>
    match CheckResponse resp with
    | some ce => .error (.api ce)
    | none => .ok resp

/-! ### Fixtures used by witnesses and counterexamples -/

/-- A page whose link set carries a next URL while `NextPage` is nil — the
shape a purely cursor-paginated response would have. -/
def cursorOnlyPage : Paginated Nat :=
  { items := [7], perPage := 1, totalPages := 2, totalEntries := 2,
    links := some { first := "https://api.harvestapp.com/v2/cats?cursor=a",
                    next := "https://api.harvestapp.com/v2/cats?cursor=b",
                    previous := "",
                    last := "https://api.harvestapp.com/v2/cats?cursor=z" },
    nextPage := none, previousPage := none, page := 1 }

/-- A page-number-style page: `NextPage` set, no links. -/
def numberedPage : Paginated Nat :=
  { items := [1, 2], perPage := 2, totalPages := 2, totalEntries := 4,
    links := none, nextPage := some 2, previousPage := none, page := 1 }

/-- Build one page of the 3-page, 2-items-per-page fixture. -/
def fixturePage (pageNo : Int) (xs : List Nat) (next : Option Int) :
    Paginated Nat :=
  { items := xs, links := none, perPage := 2, totalPages := 3,
    totalEntries := 6, nextPage := next, previousPage := none,
    page := pageNo }

/-- The fixture backend: pages 1, 2, 3 carry items [1,2], [3,4], [5,6];
page 3 has no next page; any other page number is an error (so a re-fetch
of a wrong page would surface as an error, not as repeated items). -/
def fixtureFetcher : PageFetcher String Nat := fun _ opts =>
  if opts.page = 1 then .ok (fixturePage 1 [1, 2] (some 2))
  else if opts.page = 2 then .ok (fixturePage 2 [3, 4] (some 3))
  else if opts.page = 3 then .ok (fixturePage 3 [5, 6] none)
  else .error "no such page"

/-- The 429 response of the spec's rate-limit example: the three rate
headers carry 100, 0 and 1700000000. -/
def rateLimitedResponse : Response :=
  { statusCode := 429, reqMethod := "GET",
    reqURL := "https://api.harvestapp.com/v2/time_entries",
    headers := [("X-RateLimit-Limit", "100"), ("X-RateLimit-Remaining", "0"),
                ("X-RateLimit-Reset", "1700000000")],
    body := none }

/-- The "field: message" lines of a rendered error, one per sub-error, in
order — the spec's description of how field-level sub-errors appear. -/
def renderedLines (errs : List (String × String)) : String :=
  match errs with
  | [] => ""
  | fe :: rest => "\n  " ++ fe.1 ++ ": " ++ fe.2 ++ renderedLines rest

/-- A 500 response whose body decoded to the message "boom". -/
def boom500 : Response :=
  { statusCode := 500, reqMethod := "GET",
    reqURL := "https://api.harvestapp.com/v2/x", headers := [],
    body := some { message := "boom", errors := [] } }

/-- The spec's 404 example: body `{"error":"not found"}`. -/
def notFoundResponse : Response :=
  { statusCode := 404, reqMethod := "GET",
    reqURL := "https://api.harvestapp.com/v2/projects/1", headers := [],
    body := some { message := "not found", errors := [] } }

/-- A one-page backend: any request returns a last page holding item 5. -/
def onePageFetcher : Fetcher String Nat := fun _ =>
  .ok { items := [5], links := none, perPage := 1, totalPages := 1,
        totalEntries := 1, nextPage := none, previousPage := none,
        page := 1 }

/-- A page exposing both cursor signals: a next link and a `NextPage`. -/
def bothSignalsPage : Paginated Nat :=
  { items := [1], perPage := 1, totalPages := 2, totalEntries := 2,
    links := some { first := "",
                    next := "https://api.harvestapp.com/v2/cats?page=2&per_page=1",
                    previous := "", last := "" },
    nextPage := some 2, previousPage := none, page := 1 }

/-- A terminal page: no next link, no `NextPage`. -/
def terminalPage : Paginated Nat :=
  { items := [9], perPage := 1, totalPages := 1, totalEntries := 1,
    links := none, nextPage := none, previousPage := none, page := 1 }

/-- First fixture page for the two-fetch traversal: `NextPage = 2`. -/
def pageOneOfTwo : Paginated Nat :=
  { items := [1, 2], perPage := 2, totalPages := 2, totalEntries := 3,
    links := none, nextPage := some 2, previousPage := none, page := 1 }

/-- Second fixture page for the two-fetch traversal: no `NextPage`. -/
def pageTwoOfTwo : Paginated Nat :=
  { items := [3], perPage := 2, totalPages := 2, totalEntries := 3,
    links := none, nextPage := none, previousPage := some 1, page := 2 }

/-- A two-page page-number backend. -/
def twoPageFetcher : Fetcher String Nat := fun req =>
  match req with
  | .byOptions _ o =>
    if o.page = 1 then .ok pageOneOfTwo
    else if o.page = 2 then .ok pageTwoOfTwo
    else .error "no such page"
  | .byURL _ => .error "not cursor paginated"

/-! ### C1 -/

/-- C1 counterexample: on a page whose links carry a next URL but whose
`NextPage` is nil, `HasNextPage()` returns false — the claim's "true iff
NextPage is present or the links carry a next URL" fails — and the fetch-all
loop stops at such a page even though `links.next` is present. -/
theorem hasNextPage_links_counterexample :
    cursorOnlyPage.GetNextPageURL ≠ "" ∧
    cursorOnlyPage.HasNextPage = false ∧
    nextAction cursorOnlyPage = .stop := by
  decide

/-- C1 (amended): `HasNextPage()` returns true iff `NextPage` is present —
the links are not consulted — and the fetch-all loop stops exactly when
`NextPage` is absent, even when `links.next` is present; at a stopped page
the loop issues no further fetches and returns the accumulated items. -/
theorem hasNextPage_iff_nextPage_present {E T : Type} (p : Paginated T)
    (f : Fetcher E T) (path : String) (fuel : Nat) (opts : ListOptions)
    (acc : List T) :
    (p.HasNextPage = true ↔ p.nextPage.isSome = true) ∧
    (nextAction p = .stop ↔ p.nextPage = none) ∧
    (p.nextPage = none →
      listLoop f path (fuel + 1) opts p acc = ([], some (acc, none))) := by
  refine ⟨Iff.rfl, ?_, ?_⟩
  · unfold nextAction Paginated.HasNextPage
    cases h : p.nextPage with
    | none => simp
    | some n =>
      simp only [Option.isSome_some, if_true]
      by_cases hu : p.GetNextPageURL = "" <;> simp [hu]
  · intro h
    unfold listLoop nextAction Paginated.HasNextPage
    simp [h]

/-- C1 amended witness at a concrete numbered page and a trivial fetcher. -/
theorem hasNextPage_iff_nextPage_present_witness :
    (numberedPage.HasNextPage = true ↔ numberedPage.nextPage.isSome = true) ∧
    (nextAction numberedPage = .stop ↔ numberedPage.nextPage = none) ∧
    (numberedPage.nextPage = none →
      listLoop (fun _ => .error "down") "expenses" 1
        { page := 1, perPage := 2000, updatedSince := none } numberedPage [] =
        ([], some ([], none))) :=
  hasNextPage_iff_nextPage_present numberedPage (fun _ => .error "down")
    "expenses" 0 { page := 1, perPage := 2000, updatedSince := none } []

/-! ### C5 -/

/-- C5 counterexample: the iterator constructor normalizes an unset
`PerPage` to 100, not to the documented default page-size constant
`DefaultPerPage = 2000` that the eager fetch-all uses. -/
theorem iterator_perPage_counterexample :
    (NewIterator (T := Nat) "expenses"
        (some { page := 0, perPage := 0, updatedSince := none })).opts =
      { page := 1, perPage := 100, updatedSince := none } ∧
    DefaultPerPage = 2000 ∧ (100 : Int) ≠ 2000 := by
  decide

/-- C5 (amended): options with `Page = 0` and `PerPage = 0` are normalized
before the first request — the eager fetch-all (`List` and the per-resource
listings) to `Page = 1, PerPage = DefaultPerPage`, the iterator constructor
to `Page = 1, PerPage = 100`; neither leaves a per-page size of 0. -/
theorem option_defaulting_normalization (opts : ListOptions) (path : String)
    (h1 : opts.page = 0) (h2 : opts.perPage = 0) :
    normalizeOptions (some opts) =
      { opts with page := 1, perPage := DefaultPerPage } ∧
    (NewIterator (T := Nat) path (some opts)).opts =
      { opts with page := 1, perPage := 100 } ∧
    normalizeOptions none =
      { page := 1, perPage := DefaultPerPage, updatedSince := none } := by
  unfold normalizeOptions NewIterator
  simp [h1, h2, DefaultPerPage]

/-- C5 amended witness at the all-zero options value. -/
theorem option_defaulting_normalization_witness :
    normalizeOptions (some { page := 0, perPage := 0, updatedSince := none }) =
      { page := 1, perPage := DefaultPerPage, updatedSince := none } ∧
    (NewIterator (T := Nat) "expenses"
        (some { page := 0, perPage := 0, updatedSince := none })).opts =
      { page := 1, perPage := 100, updatedSince := none } ∧
    normalizeOptions none =
      { page := 1, perPage := DefaultPerPage, updatedSince := none } :=
  option_defaulting_normalization
    { page := 0, perPage := 0, updatedSince := none } "expenses" rfl rfl

/-! ### C9 -/

/-- C9: when the transport call fails while the caller's context is already
cancelled or expired, `Do` returns the context's error; when the context is
not done, it returns the raw transport error. -/
theorem do_surfaces_ctx_error {E : Type} (e : E) (ce : CtxErr) :
    apiDo (.done ce) (.error e) = .error (.ctx ce) ∧
    apiDo (E := E) .active (.error e) = .error (.transport e) := by
  exact ⟨rfl, rfl⟩

/-! ### C10 -/

/-- The exhaustion-and-fetch step of `Iterator.Next` never reaches the nil
dereference of `NextPage`: the dereference sits behind the
`HasNextPage()` guard, and `HasNextPage()` is exactly `NextPage != nil`. -/
theorem iterNextFetchIfNeeded_no_nilDeref {E T : Type} (f : PageFetcher E T)
    (st : IteratorState T) (page : Paginated T) (log : List ListOptions) :
    (iterNextFetchIfNeeded f st page log).1 ≠ .nilDeref := by
  unfold iterNextFetchIfNeeded iterNextReturn
  split
  · split
    · simp
    · rename_i hnp
      cases h : page.nextPage with
      | none =>
        exfalso
        exact hnp (by simp [Paginated.HasNextPage, h])
      | some n =>
        simp only
        split
        · simp
        · split <;> simp
  · split <;> simp

/-- C10: in the per-resource fetch-all loops and in `Iterator.Next`, the
pointer `NextPage` is dereferenced only under a true `HasNextPage()`, and
`HasNextPage()` is exactly `NextPage != nil`: the nil-dereference branch of
the embedding is unreachable in every run. -/
theorem nextPage_deref_safe :
    (∀ (T : Type) (p : Paginated T), p.HasNextPage = p.nextPage.isSome) ∧
    (∀ (E T : Type) (f : PageFetcher E T) (st : IteratorState T),
      (iterNext f st).1 ≠ .nilDeref) ∧
    (∀ (E T : Type) (f : PageFetcher E T) (path : String) (fuel : Nat)
      (opts : ListOptions) (acc : List T),
      svcListLoop f path fuel opts acc ≠ .nilDeref) := by
  refine ⟨fun _ _ => rfl, ?_, ?_⟩
  · intro E T f st
    unfold iterNext
    cases st.current with
    | none =>
      cases f st.path st.opts with
      | error e => simp
      | ok page => exact iterNextFetchIfNeeded_no_nilDeref f _ page _
    | some page => exact iterNextFetchIfNeeded_no_nilDeref f st page []
  · intro E T f path fuel
    induction fuel with
    | zero => intro opts acc; unfold svcListLoop; simp
    | succ n ih =>
      intro opts acc
      unfold svcListLoop
      cases f path opts with
      | error e => simp
      | ok result =>
        simp only
        split
        · simp
        · rename_i hnp
          cases h : result.nextPage with
          | none =>
            exfalso
            exact hnp (by simp [Paginated.HasNextPage, h])
          | some n' => exact ih _ _

/-! ### C4 -/

/-- C4: over the 3-page, 2-items-per-page fixture, seven `Next()` calls
yield exactly the six items in page-then-item order and then the
end-of-sequence signal `(nil, nil)` (not an error); page 1 is fetched once,
on the first call only, and pages 2 and 3 are each fetched exactly at the
call on which the previous page's items are exhausted. -/
theorem iterator_fixture_exhaustion :
    runIter fixtureFetcher 7
      (NewIterator "items" (some { page := 0, perPage := 0, updatedSince := none })) =
      [(.item 1, [{ page := 1, perPage := 100, updatedSince := none }]),
       (.item 2, []),
       (.item 3, [{ page := 2, perPage := 100, updatedSince := none }]),
       (.item 4, []),
       (.item 5, [{ page := 3, perPage := 100, updatedSince := none }]),
       (.item 6, []),
       (.done, [])] := by
  decide

/-! ### C7 -/

/-- The empty string (a missing header) parses to no integer. -/
theorem atoi_empty : atoi "" = none := rfl

/-- C7: every 2xx status classifies as no error; a 429 classifies as a
`RateLimitError` with the fixed message and the parsed `Rate` snapshot,
whose limit and remaining are the parsed integer header values (0 when the
header is missing or unparsable) and whose reset is the parsed Unix epoch as
an absolute timestamp (the zero time when missing or unparsable); in
particular the epoch 1700000000 is the absolute time 2023-11-14T22:13:20Z. -/
theorem classify_rate_limit (r : Response) :
    (200 ≤ r.statusCode → r.statusCode ≤ 299 → CheckResponse r = none) ∧
    (r.statusCode = 429 →
      CheckResponse r =
        some (.rateLimit (ParseRate r) "API rate limit exceeded")) ∧
    (ParseRate r).limit = (atoi (headerGet r "X-RateLimit-Limit")).getD 0 ∧
    (ParseRate r).remaining =
      (atoi (headerGet r "X-RateLimit-Remaining")).getD 0 ∧
    (ParseRate r).reset =
      ((atoi (headerGet r "X-RateLimit-Reset")).map Timestamp.unix).getD .zero ∧
    civilFromUnix 1700000000 = (2023, 11, 14, 22, 13, 20) := by
  have hfields : (ParseRate r).limit =
        (atoi (headerGet r "X-RateLimit-Limit")).getD 0 ∧
      (ParseRate r).remaining =
        (atoi (headerGet r "X-RateLimit-Remaining")).getD 0 ∧
      (ParseRate r).reset =
        ((atoi (headerGet r "X-RateLimit-Reset")).map Timestamp.unix).getD
          .zero := by
    unfold ParseRate
    by_cases h1 : headerGet r "X-RateLimit-Limit" = "" <;>
      by_cases h2 : headerGet r "X-RateLimit-Remaining" = "" <;>
      by_cases h3 : headerGet r "X-RateLimit-Reset" = "" <;>
      cases hA : atoi (headerGet r "X-RateLimit-Reset") <;>
      simp_all [atoi_empty]
  refine ⟨?_, ?_, hfields.1, hfields.2.1, hfields.2.2, by decide⟩
  · intro hlo hhi
    unfold CheckResponse
    simp [hlo, hhi]
  · intro h
    unfold CheckResponse
    rw [h]
    norm_num

/-- C7 witness: the spec's concrete rate-limit example. -/
theorem classify_rate_limit_witness :
    CheckResponse rateLimitedResponse =
      some (.rateLimit { limit := 100, remaining := 0, reset := .unix 1700000000 } "API rate limit exceeded") := by
  have h := (classify_rate_limit rateLimitedResponse).2.1 rfl
  rw [h]
  decide

/-! ### C8 -/

/-- The fold of `ErrorResponse.Error` appends exactly the sub-error lines. -/
theorem foldl_error_lines (l : List (String × String)) :
    ∀ base : String,
      l.foldl (fun msg fe => msg ++ "\n  " ++ fe.1 ++ ": " ++ fe.2) base =
        base ++ renderedLines l := by
  induction l with
  | nil => intro base; simp [renderedLines, String.append_empty]
  | cons fe l ih =>
    intro base
    simp only [List.foldl_cons, renderedLines]
    rw [ih]
    simp [String.append_assoc]

/-- `ErrorResponse.Error` renders the method, URL, status and message, then
one "field: message" line per sub-error. -/
theorem renderError_eq_lines (e : ErrorResponseData) :
    renderError e =
      e.method ++ " " ++ e.url ++ ": " ++ toString e.status ++ " " ++ e.message
        ++ renderedLines e.errors := by
  unfold renderError
  split
  · rw [foldl_error_lines]
  · rename_i h
    have he : e.errors = [] := List.eq_nil_of_length_eq_zero (by omega)
    simp [he, renderedLines, String.append_empty]

/-- C8 counterexample: for a non-2xx, non-429 status outside the four
special cases, a body-supplied message is kept: a 500 response whose body
carried the message "boom" classifies with message "boom", not with the
generic unexpected-status message — so "any other status → a generic
unexpected-status message" does not hold unconditionally. -/
theorem unexpected_status_message_counterexample :
    CheckResponse boom500 =
      some (.errorResponse { method := "GET",
                             url := "https://api.harvestapp.com/v2/x",
                             status := 500, message := "boom",
                             errors := [] }) ∧
    "boom" ≠ "Unexpected status code: 500" := by
  decide

/-- C8 (amended): for every non-2xx, non-429 response the classifier
best-effort decodes the body into the envelope (an undecodable body leaves
it empty) and returns an error that retains the request method, URL and
status and the envelope's sub-errors; the message is assigned by status —
401 and 403 the fixed authentication/authorization texts, 404 "Resource not
found." (all three even when the body supplied a message), 422 the
validation text only if the envelope did not supply a message, and any other
status the generic unexpected-status text only if the envelope did not
supply a message; rendering always shows method, URL, status and message,
with one "field: message" line per sub-error. -/
theorem classify_non2xx_messages (r : Response) (env : ErrorEnvelope)
    (henv : env = r.body.getD { message := "", errors := [] })
    (hnot2xx : ¬ (200 ≤ r.statusCode ∧ r.statusCode ≤ 299))
    (hnot429 : r.statusCode ≠ 429) :
    CheckResponse r = some (.errorResponse
      { method := r.reqMethod, url := r.reqURL, status := r.statusCode,
        message :=
          if r.statusCode = 401 then
            "Authentication failed. Check your access token and account ID."
          else if r.statusCode = 403 then
            "Access forbidden. You don't have permission to access this resource."
          else if r.statusCode = 404 then "Resource not found."
          else if r.statusCode = 422 then
            if env.message = "" then
              "Invalid request. Check your input parameters."
            else env.message
          else if env.message = "" then
            "Unexpected status code: " ++ toString r.statusCode
          else env.message,
        errors := env.errors }) ∧
    (∀ e : ErrorResponseData, renderError e =
      e.method ++ " " ++ e.url ++ ": " ++ toString e.status ++ " "
        ++ e.message ++ renderedLines e.errors) := by
  constructor
  · subst henv
    unfold CheckResponse
    rw [if_neg hnot2xx, if_neg hnot429]
    cases hb : r.body <;> simp [hb] <;> split_ifs <;> simp_all
  · exact renderError_eq_lines

/-- C8 amended witness: the spec's two concrete examples — the 404 body
message is replaced by "Resource not found.", and the 422 error renders
with the "name: required" line. -/
theorem classify_non2xx_messages_witness :
    CheckResponse notFoundResponse =
      some (.errorResponse { method := "GET",
                             url := "https://api.harvestapp.com/v2/projects/1",
                             status := 404, message := "Resource not found.",
                             errors := [] }) ∧
    renderError { method := "GET", url := "https://x", status := 422,
                  message := "invalid", errors := [("name", "required")] } =
      "GET https://x: 422 invalid\n  name: required" := by
  constructor
  · have h := (classify_non2xx_messages notFoundResponse
      { message := "not found", errors := [] } rfl (by decide) (by decide)).1
    rw [h]
    decide
  · have h := (classify_non2xx_messages notFoundResponse
      { message := "not found", errors := [] } rfl (by decide) (by decide)).2
    rw [h]
    decide

/-! ### C2 -/

/-- Invariant of the fetch-all loop: a terminated run returns the
accumulator followed by the items of the pages the loop fetched, in fetch
order; a run that hits a fetch error returns the error with no items. -/
theorem listLoop_invariant {E T : Type} (f : Fetcher E T) (path : String) :
    ∀ (fuel : Nat) (opts : ListOptions) (p : Paginated T) (acc : List T)
      (items : List T) (e? : Option E),
      (listLoop f path fuel opts p acc).2 = some (items, e?) →
      (e? = none →
        items = acc ++
          ((listLoop f path fuel opts p acc).1.map
            (fun pr => pr.2.items)).flatten) ∧
      (∀ e, e? = some e → items = []) := by
  intro fuel
  induction fuel with
  | zero =>
    intro opts p acc items e? h
    simp [listLoop] at h
  | succ n ih =>
    intro opts p acc items e? h
    rw [listLoop] at h ⊢
    cases hna : nextAction p with
    | stop =>
      rw [hna] at h
      dsimp only at h ⊢
      simp only [Option.some.injEq, Prod.mk.injEq] at h
      refine ⟨fun _ => ?_, fun e he => ?_⟩
      · simp [← h.1]
      · rw [← h.2] at he; cases he
    | followLink url =>
      rw [hna] at h
      dsimp only at h ⊢
      cases hf : f (Request.byURL (pathAndQuery url)) with
      | error e =>
        rw [hf] at h
        dsimp only at h
        simp only [Option.some.injEq, Prod.mk.injEq] at h
        refine ⟨fun hn => ?_, fun e' he => h.1.symm⟩
        rw [← h.2] at hn; cases hn
      | ok r =>
        rw [hf] at h
        dsimp only at h ⊢
        have hinv := ih opts r (acc ++ r.items) items e? h
        refine ⟨fun hn => ?_, hinv.2⟩
        rw [hinv.1 hn]
        simp [List.append_assoc]
    | byPageNumber m =>
      rw [hna] at h
      dsimp only at h ⊢
      cases hf : f (Request.byOptions path { opts with page := m }) with
      | error e =>
        rw [hf] at h
        dsimp only at h
        simp only [Option.some.injEq, Prod.mk.injEq] at h
        refine ⟨fun hn => ?_, fun e' he => h.1.symm⟩
        rw [← h.2] at hn; cases hn
      | ok r =>
        rw [hf] at h
        dsimp only at h ⊢
        have hinv := ih { opts with page := m } r (acc ++ r.items) items e? h
        refine ⟨fun hn => ?_, hinv.2⟩
        rw [hinv.1 hn]
        simp [List.append_assoc]

/-- C2: when the eager fetch-all terminates, the returned slice is the
concatenation of the fetched pages' items in fetch order (item order within
each page preserved); when any page fetch errors, the error is returned
with no items — pages already fetched are discarded from the return
value. -/
theorem listAll_concat_and_atomic {E T : Type} (f : Fetcher E T)
    (path : String) (opts? : Option ListOptions) (fuel : Nat)
    (items : List T) (e? : Option E)
    (h : (listAll f path opts? fuel).2 = some (items, e?)) :
    (e? = none →
      items = ((listAll f path opts? fuel).1.map
        (fun pr => pr.2.items)).flatten) ∧
    (∀ e, e? = some e → items = []) := by
  rw [listAll] at h ⊢
  cases hf : f (Request.byOptions path (normalizeOptions opts?)) with
  | error e =>
    rw [hf] at h
    dsimp only at h
    simp only [Option.some.injEq, Prod.mk.injEq] at h
    refine ⟨fun hn => ?_, fun e' he => h.1.symm⟩
    rw [← h.2] at hn; cases hn
  | ok r =>
    rw [hf] at h
    dsimp only at h ⊢
    have hinv := listLoop_invariant f path fuel (normalizeOptions opts?) r
      r.items items e? h
    refine ⟨fun hn => ?_, hinv.2⟩
    rw [hinv.1 hn]
    simp

/-- C2 witness at the one-page backend. -/
theorem listAll_concat_and_atomic_witness :
    ((none : Option String) = none →
      [5] = ((listAll onePageFetcher "expenses" none 1).1.map
        (fun pr => pr.2.items)).flatten) ∧
    (∀ e, (none : Option String) = some e → [5] = ([] : List Nat)) :=
  listAll_concat_and_atomic onePageFetcher "expenses" none 1 [5] none
    (by decide)

/-! ### C3 -/

/-- C3: on every iteration of the fetch-all loop, a page exposing both a
next-link URL and a numeric `NextPage` is followed via the link-based
cursor — the next request is for the link's exact path+query, bypassing the
options serialization — a page exposing only `NextPage` sets the options'
page number to it, and a page exposing neither stops the traversal with no
further fetch. -/
theorem traversal_prefers_link {E T : Type} (p : Paginated T)
    (f : Fetcher E T) (path : String) (fuel : Nat) (opts : ListOptions)
    (acc : List T) :
    (p.GetNextPageURL ≠ "" → p.nextPage.isSome = true →
      nextAction p = .followLink p.GetNextPageURL) ∧
    (p.GetNextPageURL = "" → ∀ n, p.nextPage = some n →
      nextAction p = .byPageNumber n) ∧
    (p.GetNextPageURL = "" → p.nextPage = none → nextAction p = .stop) ∧
    (∀ url r, nextAction p = .followLink url →
      f (Request.byURL (pathAndQuery url)) = .ok r →
      listLoop f path (fuel + 1) opts p acc =
        ((Request.byURL (pathAndQuery url), r) ::
            (listLoop f path fuel opts r (acc ++ r.items)).1,
          (listLoop f path fuel opts r (acc ++ r.items)).2)) ∧
    (∀ n r, nextAction p = .byPageNumber n →
      f (Request.byOptions path { opts with page := n }) = .ok r →
      listLoop f path (fuel + 1) opts p acc =
        ((Request.byOptions path { opts with page := n }, r) ::
            (listLoop f path fuel { opts with page := n } r
              (acc ++ r.items)).1,
          (listLoop f path fuel { opts with page := n } r
            (acc ++ r.items)).2)) ∧
    (nextAction p = .stop →
      listLoop f path (fuel + 1) opts p acc = ([], some (acc, none))) := by
  refine ⟨?_, ?_, ?_, ?_, ?_, ?_⟩
  · intro hu hs
    simp [nextAction, Paginated.HasNextPage, hs, hu]
  · intro hu n hn
    simp [nextAction, Paginated.HasNextPage, hn, hu]
  · intro hu hn
    simp [nextAction, Paginated.HasNextPage, hn, hu]
  · intro url r hna hf
    rw [listLoop, hna]
    dsimp only
    rw [hf]
  · intro n r hna hf
    rw [listLoop, hna]
    dsimp only
    rw [hf]
  · intro hna
    rw [listLoop, hna]

/-- C3 witness: with both signals present the decision is the link cursor,
and at a page with neither signal the loop stops, returning the
accumulator untouched. -/
theorem traversal_prefers_link_witness :
    nextAction bothSignalsPage =
      .followLink "https://api.harvestapp.com/v2/cats?page=2&per_page=1" ∧
    listLoop (fun _ => (.error "down" : Except String (Paginated Nat)))
        "cats" 1 { page := 1, perPage := 1, updatedSince := none }
        terminalPage [9] =
      ([], some ([9], none)) := by
  constructor
  · exact (traversal_prefers_link bothSignalsPage
      (fun _ => (.error "down" : Except String (Paginated Nat))) "cats" 0
      { page := 1, perPage := 1, updatedSince := none } []).1
      (by decide) (by decide)
  · exact (traversal_prefers_link terminalPage
      (fun _ => (.error "down" : Except String (Paginated Nat))) "cats" 0
      { page := 1, perPage := 1, updatedSince := none } [9]).2.2.2.2.2
      (by decide)

/-! ### C6 -/

/-- C6: a page-number traversal whose first page carries `NextPage = m` (and
no next link) and whose page fetched at page number m carries no `NextPage`
performs exactly two page fetches and then halts, whatever fuel remains. -/
theorem pageNumber_two_fetches {E T : Type} (f : Fetcher E T) (path : String)
    (opts? : Option ListOptions) (p1 p2 : Paginated T) (m : Int) (fuel : Nat)
    (h1 : f (Request.byOptions path (normalizeOptions opts?)) = .ok p1)
    (hu1 : p1.GetNextPageURL = "")
    (hn1 : p1.nextPage = some m)
    (h2 : f (Request.byOptions path
      { normalizeOptions opts? with page := m }) = .ok p2)
    (hn2 : p2.nextPage = none) :
    listAll f path opts? (fuel + 2) =
      ([(Request.byOptions path (normalizeOptions opts?), p1),
        (Request.byOptions path { normalizeOptions opts? with page := m },
          p2)],
       some (p1.items ++ p2.items, none)) := by
  have hna1 : nextAction p1 = .byPageNumber m := by
    simp [nextAction, Paginated.HasNextPage, hn1, hu1]
  have hna2 : nextAction p2 = .stop := by
    simp [nextAction, Paginated.HasNextPage, hn2]
  rw [listAll]
  dsimp only
  rw [h1]
  dsimp only
  rw [show fuel + 2 = (fuel + 1) + 1 from rfl, listLoop, hna1]
  dsimp only
  rw [h2]
  dsimp only
  rw [listLoop, hna2]

/-- C6 witness: the two-page backend is exhausted in exactly two fetches. -/
theorem pageNumber_two_fetches_witness :
    listAll twoPageFetcher "expenses" none 2 =
      ([(Request.byOptions "expenses"
           { page := 1, perPage := 2000, updatedSince := none }, pageOneOfTwo),
        (Request.byOptions "expenses"
           { page := 2, perPage := 2000, updatedSince := none }, pageTwoOfTwo)],
       some ([1, 2, 3], none)) := by
  have h := pageNumber_two_fetches twoPageFetcher "expenses" none
    pageOneOfTwo pageTwoOfTwo 2 0 rfl (by decide) (by decide)
    rfl (by decide)
  exact h.trans (by decide)

end Harvest
